import Mathlib

/-!
Shallow embedding of the point-sampling and gradient machinery of
`geokit/_core/rasterutil.py` (functions `rasterInfo`, `pointValues`,
`pointValue`, `gradient`), together with proofs settling the claims about
that code.  Floating point arithmetic is idealized as exact rational
arithmetic; `numpy.round` (round half to even) is modelled exactly.
-/

namespace Geokit

/-- Models `numpy.round` on a scalar: round half to even (banker rounding). -/
def npRound (q : ℚ) : ℤ :=
  if q - ⌊q⌋ < 1/2 then ⌊q⌋
  else if 1/2 < q - ⌊q⌋ then ⌊q⌋ + 1
  else if ⌊q⌋ % 2 = 0 then ⌊q⌋ else ⌊q⌋ + 1

/-- Models `numpyArray.min()` on a nonempty array given as head and tail
(the empty case never arises in `pointValues`, which fails earlier on an
empty point list). -/
def listMin : List ℤ → ℤ
  | [] => 0
  | x :: xs => xs.foldl min x

/-- Models `numpyArray.max()` on a nonempty array. -/
def listMax : List ℤ → ℤ
  | [] => 0
  | x :: xs => xs.foldl max x

/-- The fields of the named tuple returned by `rasterInfo` that the sampling
and gradient code reads.  `pixelHeight` is stored as a positive magnitude
(`rasterInfo` negates a negative geotransform `dy`), and `yAtTop` records
whether storage row 0 is the geographic top (geotransform `dy < 0`). -/
structure RasterInfo where
  xMin : ℚ
  yMax : ℚ
  pixelWidth : ℚ
  pixelHeight : ℚ
  xWinSize : ℕ
  yWinSize : ℕ
  yAtTop : Bool
  deriving DecidableEq

/-- `rasterInfo` computes `yMin` from the geotransform; in both orientation
branches it equals `yMax - ySize * dy` with `dy` the positive magnitude. -/
def RasterInfo.yMin (i : RasterInfo) : ℚ := i.yMax - i.yWinSize * i.pixelHeight

/-- A loaded raster: its `rasterInfo` fields, its spatial reference system
tag (`S` abstracts OSR spatial-reference handles; equality models
`srs.IsSame`), and band 1 in storage order (`data row col`, exactly the
layout read by `band.ReadAsArray`). -/
structure Raster (S : Type) where
  srs : S
  info : RasterInfo
  data : ℕ → ℕ → ℚ

/-- An OGR point geometry: coordinates plus assigned spatial reference. -/
structure OgrPoint (S : Type) where
  x : ℚ
  y : ℚ
  srs : S
  deriving DecidableEq

/-- Models `pt.Transform(trx)` for `trx = osr.CoordinateTransformation
(fromSRS, toSRS)`: the geometry coordinates are replaced by the transformed
ones and the geometry now carries the target reference system.  The
transformation collaborator itself is the parameter `trans`. -/
def applyTrans {S : Type} (trans : S → S → ℚ × ℚ → ℚ × ℚ) (fromSRS toSRS : S)
    (p : OgrPoint S) : OgrPoint S :=
  ⟨(trans fromSRS toSRS (p.x, p.y)).1, (trans fromSRS toSRS (p.x, p.y)).2, toSRS⟩

/-- The x-axis half of the index computation in `pointValues`:
`xValues = (x-(info.xMin+0.5*info.pixelWidth))/info.pixelWidth`,
`xIndexes = np.round(xValues)`, `xOffset = xValues - xIndexes`. -/
def locateX (info : RasterInfo) (x : ℚ) : ℤ × ℚ :=
  let xVal := (x - (info.xMin + info.pixelWidth / 2)) / info.pixelWidth
  (npRound xVal, xVal - npRound xVal)

/-- The y-axis half of the index computation in `pointValues`.  Note that
the source subtracts `0.5*info.pixelWidth` (not `pixelHeight`) in both
orientation branches, and negates the offset in the non-`yAtTop` branch:
`yValues = ((info.yMax-0.5*info.pixelWidth)-y)/abs(info.pixelHeight)` when
`yAtTop`, else `yValues = (y-(info.yMin+0.5*info.pixelWidth))/info.pixelHeight`
with `yOffset = -1*(yValues-yIndexes)`. -/
def locateY (info : RasterInfo) (y : ℚ) : ℤ × ℚ :=
  if info.yAtTop then
    let yVal := ((info.yMax - info.pixelWidth / 2) - y) / |info.pixelHeight|
    (npRound yVal, yVal - npRound yVal)
  else
    let yVal := (y - (info.yMin + info.pixelWidth / 2)) / info.pixelHeight
    (npRound yVal, -(yVal - npRound yVal))

/-- Models `band.ReadAsArray(xoff=xi, yoff=yi, win_xsize=window,
win_ysize=window)` followed by the orientation fix `data=data[::-1,:]`
applied when the raster is not `yAtTop`. -/
def readWindow {S : Type} (r : Raster S) (xStart yStart : ℤ) (winRange : ℕ) :
    List (List ℚ) :=
  let window := 2 * winRange + 1
  let rows := (List.range window).map (fun (k : ℕ) =>
    (List.range window).map (fun (l : ℕ) =>
      r.data (yStart + (k : ℤ)).toNat (xStart + (l : ℤ)).toNat))
  if r.info.yAtTop then rows else rows.reverse

/-- The per-point out-of-bounds condition of the claims: the located index
must support a window of the given radius on each side. -/
def outOfBounds (info : RasterInfo) (c : ℚ × ℚ) (winRange : ℕ) : Prop :=
  (locateX info c.1).1 - winRange < 0 ∨ (locateY info c.2).1 - winRange < 0 ∨
    (locateX info c.1).1 + winRange ≥ (info.xWinSize : ℤ) ∨
    (locateY info c.2).1 + winRange ≥ (info.yWinSize : ℤ)

/-- The batch out-of-bounds error message raised by `pointValues`. -/
def oobMsg : String :=
  "One of the given points (or extraction windows) exceeds the source limits"

/-- The index/offset computation, batch min/max bounds check and window
reads of `pointValues`, operating on coordinates already cast to the
raster reference system.  The bounds check aggregates over the whole batch
(`xStarts.min()<0 or yStarts.min()<0 or (xStarts.max()+window)>info.xWinSize
or (yStarts.max()+window)>info.yWinSize`) before any read happens, so an
error yields no windows at all.  The numpy vectorized index/offset
arithmetic is modelled as maps over the coordinate list. -/
def pointValuesChecked {S : Type} (r : Raster S) (coords : List (ℚ × ℚ))
    (winRange : ℕ) :
    Except String (List (List (List ℚ)) × List (ℚ × ℚ)) :=
  let offsets := coords.map (fun c => ((locateX r.info c.1).2, (locateY r.info c.2).2))
  let xStarts := coords.map (fun c => (locateX r.info c.1).1 - (winRange : ℤ))
  let yStarts := coords.map (fun c => (locateY r.info c.2).1 - (winRange : ℤ))
  let window : ℤ := 2 * winRange + 1
  if listMin xStarts < 0 ∨ listMin yStarts < 0 ∨
      listMax xStarts + window > (r.info.xWinSize : ℤ) ∨
      listMax yStarts + window > (r.info.yWinSize : ℤ) then
    .error oobMsg
  else
    .ok (List.zipWith (fun xs ys => readWindow r xs ys winRange) xStarts yStarts,
      offsets)

/-- `pointValues(source, points, ...)` on an already-normalized list of
point geometries.  The reference system of the whole batch is taken from
the first point; if it differs from the raster system, one coordinate
transformation built from the first point reference system is applied to
every geometry in place.  The second component of the result is the final
state of the caller geometry objects (modelling the in-place mutation). -/
def pointValues {S : Type} [DecidableEq S] (trans : S → S → ℚ × ℚ → ℚ × ℚ)
    (r : Raster S) (points : List (OgrPoint S)) (winRange : ℕ) :
    Except String (List (List (List ℚ)) × List (ℚ × ℚ)) × List (OgrPoint S) :=
  match points with
  | [] => (.error "Failed to load points", [])
  | p0 :: rest =>
    let pts := if p0.srs = r.srs then p0 :: rest
      else (p0 :: rest).map (applyTrans trans p0.srs r.srs)
    (pointValuesChecked r (pts.map (fun p => (p.x, p.y))) winRange, pts)

/-- The heterogeneous `point` argument accepted by `pointValues` and
`pointValue`: a bare coordinate tuple, a single point geometry, a list of
coordinate tuples, or a list of point geometries. -/
inductive PointsInput (S : Type) where
  | coord (xy : ℚ × ℚ)
  | geom (p : OgrPoint S)
  | coordList (l : List (ℚ × ℚ))
  | geomList (l : List (OgrPoint S))

/-- The `isinstance`/`try` dispatch at the top of `pointValues`: tuples are
turned into point geometries carrying `pointSRS` (`_pointGen`), single
items are wrapped into one-element lists, and a list of geometries passes
through unchanged (indexing a geometry raises, so the `except` branch
keeps the caller objects). -/
def normalizePoints {S : Type} (input : PointsInput S) (pointSRS : S) :
    List (OgrPoint S) :=
  match input with
  | .coord xy => [⟨xy.1, xy.2, pointSRS⟩]
  | .geom p => [p]
  | .coordList l => l.map (fun xy => ⟨xy.1, xy.2, pointSRS⟩)
  | .geomList l => l

/-- Value of the window at integer node `(yi, xi)`, nodes ranging over
`-w..w` in each axis (row `yi + w`, column `xi + w` of the window). -/
def znode (w : ℕ) (z : List (List ℚ)) (yi xi : ℤ) : ℚ :=
  ((z.getD (yi + w).toNat []).getD (xi + w).toNat 0)

/-- Models the external `scipy.interpolate.RectBivariateSpline(y, x, z,
kx=1, ky=1)` (default `s=0`) built by the linear-spline branch of
`pointValue` over the integer node grid `x = y = linspace(-w, w, 2*w+1)`,
evaluated at `(yo, xo)`: the degree-1 interpolating spline of gridded data
is piecewise-bilinear interpolation between the four surrounding nodes
(with linear extrapolation beyond the outermost cells). -/
def bilinearEval (w : ℕ) (z : List (List ℚ)) (yo xo : ℚ) : ℚ :=
  let iy : ℤ := max (-(w : ℤ)) (min ((w : ℤ) - 1) ⌊yo⌋)
  let ix : ℤ := max (-(w : ℤ)) (min ((w : ℤ) - 1) ⌊xo⌋)
  let t := yo - iy
  let s := xo - ix
  (1 - t) * (1 - s) * znode w z iy ix + (1 - t) * s * znode w z iy (ix + 1) +
    t * (1 - s) * znode w z (iy + 1) ix + t * s * znode w z (iy + 1) (ix + 1)

/-- Models `z.mean()` on a window. -/
def matMean (z : List (List ℚ)) : ℚ :=
  let fl := z.flatten
  (fl.foldl (· + ·) 0) / fl.length

/-- The value returned by `pointValue`: a bare scalar when the (normalized)
input held exactly one point, an array of scalars otherwise. -/
inductive PVOut where
  | scalar (v : ℚ)
  | array (vs : List ℚ)
  deriving DecidableEq

/-- The result-shape collapse at the end of every `pointValue` branch:
`if len(result)==1: return result[0]... else: return np.array(...)`. -/
def collapse (vs : List ℚ) : PVOut :=
  if vs.length = 1 then .scalar (vs.headD 0) else .array vs

/-- The shared shape of every `pointValue` interpolation branch: call
`pointValues` with the branch window radius, reduce each value-window and
offset pair to a scalar with the branch reducer `g`, then collapse the
result shape.  The second component carries the final state of the caller
geometry objects. -/
def runMode {S : Type} [DecidableEq S] (trans : S → S → ℚ × ℚ → ℚ × ℚ)
    (r : Raster S) (points : List (OgrPoint S)) (winRange : ℕ)
    (g : List (List ℚ) → ℚ × ℚ → ℚ) :
    Except String PVOut × List (OgrPoint S) :=
  match pointValues trans r points winRange with
  | (.error e, st) => (.error e, st)
  | (.ok (values, offsets), st) =>
    (.ok (collapse (List.zipWith g values offsets)), st)

/-- Error message of the unrecognized-interpolation-mode branch. -/
def interpModeMsg : String := "Interpolation mode not understood"

/-- Error message raised when `func` mode is chosen without a reducer. -/
def funcMsg : String := "func mode chosen, but no func kwargs was given"

/-- `pointValue(source, point, pointSRS, mode, **kwargs)`.  The external
bicubic spline of the cubic-spline branch is abstracted as the parameter
`cub`; the caller-supplied reducer of `func` mode is `func` (with the
documented contract of returning a single scalar); `wkw` is the `winRange`
keyword consumed by the average and func branches (default 3).  Mode
`near` reduces the 1x1 window to its single cell, `linear-spline` builds
the degree-1 spline on the 5x5 window and evaluates it at
`(offset.y, offset.x)`, `average` takes the window mean. -/
def pointValue {S : Type} [DecidableEq S] (trans : S → S → ℚ × ℚ → ℚ × ℚ)
    (cub : List (List ℚ) → ℚ → ℚ → ℚ) (func : Option (List (List ℚ) → ℚ))
    (wkw : Option ℕ) (r : Raster S) (input : PointsInput S) (pointSRS : S)
    (mode : String) : Except String PVOut × List (OgrPoint S) :=
  let points := normalizePoints input pointSRS
  if mode = "near" then
    runMode trans r points 0 (fun z _ => (z.headD []).headD 0)
  else if mode = "linear-spline" then
    runMode trans r points 2 (fun z off => bilinearEval 2 z off.2 off.1)
  else if mode = "cubic-spline" then
    runMode trans r points 4 (fun z off => cub z off.2 off.1)
  else if mode = "average" then
    runMode trans r points (wkw.getD 3) (fun z _ => matMean z)
  else if mode = "func" then
    match func with
    | none => (.error funcMsg, points)
    | some f => runMode trans r points (wkw.getD 3) (fun z _ => f z)
  else (.error interpModeMsg, points)

/-- The scalar the batch machinery produces for one located coordinate:
window read at the located index with the given radius, reduced by `g` at
the sub-pixel offsets. -/
def pointResult {S : Type} (r : Raster S) (winRange : ℕ)
    (g : List (List ℚ) → ℚ × ℚ → ℚ) (c : ℚ × ℚ) : ℚ :=
  g (readWindow r ((locateX r.info c.1).1 - (winRange : ℤ))
      ((locateY r.info c.2).1 - (winRange : ℤ)) winRange)
    ((locateX r.info c.1).2, (locateY r.info c.2).2)

/-- A 2D numpy array as used by `gradient`: a shape plus an entry
function (entries outside the shape are irrelevant padding). -/
structure Mat (α : Type) where
  rows : ℕ
  cols : ℕ
  entry : ℕ → ℕ → α

/-- Elementwise map over a matrix. -/
def Mat.map {α β : Type} (m : Mat α) (f : α → β) : Mat β :=
  ⟨m.rows, m.cols, fun i j => f (m.entry i j)⟩

/-- `ns = np.zeros(arr.shape); ns[1:-1,:] = (arr[2:,:] - arr[:-2,:]) /
(2*sourceInfo.dy*yFactor)`: the north-south central difference with zero
first and last rows. -/
def nsComp (arr : Mat ℚ) (dy yFactor : ℚ) : Mat ℚ :=
  ⟨arr.rows, arr.cols, fun i j =>
    if 1 ≤ i ∧ i + 1 < arr.rows then
      (arr.entry (i + 1) j - arr.entry (i - 1) j) / (2 * dy * yFactor)
    else 0⟩

/-- `ew = np.zeros(arr.shape); ew[:,1:-1] = (arr[:,:-2] - arr[:,2:]) /
(2*sourceInfo.dx*xFactor)`: the east-west central difference with zero
first and last columns. -/
def ewComp (arr : Mat ℚ) (dx xFactor : ℚ) : Mat ℚ :=
  ⟨arr.rows, arr.cols, fun i j =>
    if 1 ≤ j ∧ j + 1 < arr.cols then
      (arr.entry i (j - 1) - arr.entry i (j + 1)) / (2 * dx * xFactor)
    else 0⟩

/-- The `acceptable` mode list checked at the top of `gradient`. -/
def acceptableModes : List String :=
  ["total", "slope", "north-south", "east-west", "dir", "ew", "ns"]

/-- Models `numpy.arctan2 y x` (four-quadrant arctangent). -/
noncomputable def arctan2 (y x : ℝ) : ℝ :=
  if 0 < x then Real.arctan (y / x)
  else if x < 0 then
    (if 0 ≤ y then Real.arctan (y / x) + Real.pi else Real.arctan (y / x) - Real.pi)
  else if 0 < y then Real.pi / 2
  else if y < 0 then -(Real.pi / 2)
  else 0

/-- Error message of the mode check at the top of `gradient`
(a `ValueError` in the source). -/
def gradModeMsg : String := "mode not understood. Must be one of the acceptable modes"

/-- The `UnboundLocalError` the interpreter raises when `gradient` reaches
`return output` (or `createRaster(..., data=output, ...)`) with `output`
never assigned — which happens for mode `"ew"`, present in `acceptable`
but missing from the east-west computation branch condition
`mode in ["east-west", "total", "slope", "dir"]`. -/
def unboundOutputMsg : String := "local variable output referenced before assignment"

/-- `gradient(source, mode, factor, asMatrix=True)` on the fetched matrix,
with the per-axis unit factors already resolved (`xFactor`, `yFactor`).
Mirrors the source control flow: the mode must be in `acceptable`; the
north-south difference is computed for modes `north-south/ns/total/slope/
dir`, the east-west difference for `east-west/total/slope/dir` (note the
missing `"ew"`), `output` is then `ns`, `ew`, `sqrt(ns*ns+ew*ew)` or
`arctan2(ns, ew)`; mode `"ew"` passes the check but assigns no output. -/
noncomputable def gradient (mode : String) (arr : Mat ℚ) (dx dy xFactor yFactor : ℚ) :
    Except String (Mat ℝ) :=
  if mode ∈ acceptableModes then
    if mode = "north-south" ∨ mode = "ns" then
      .ok ((nsComp arr dy yFactor).map (fun q => (q : ℝ)))
    else if mode = "east-west" then
      .ok ((ewComp arr dx xFactor).map (fun q => (q : ℝ)))
    else if mode = "total" ∨ mode = "slope" then
      .ok ⟨arr.rows, arr.cols, fun i j =>
        Real.sqrt ((((nsComp arr dy yFactor).entry i j : ℝ)) ^ 2 +
          (((ewComp arr dx xFactor).entry i j : ℝ)) ^ 2)⟩
    else if mode = "dir" then
      .ok ⟨arr.rows, arr.cols, fun i j =>
        arctan2 ((nsComp arr dy yFactor).entry i j) ((ewComp arr dx xFactor).entry i j)⟩
    else .error unboundOutputMsg
  else .error gradModeMsg

/-- Entry `(i, j)` of the gradient output, `0` when the call raised. -/
noncomputable def gradEntry (mode : String) (arr : Mat ℚ) (dx dy xFactor yFactor : ℚ)
    (i j : ℕ) : ℝ :=
  match gradient mode arr dx dy xFactor yFactor with
  | .ok m => m.entry i j
  | .error _ => 0

/-- Shape of the gradient output, `none` when the call raised. -/
noncomputable def gradShape (mode : String) (arr : Mat ℚ) (dx dy xFactor yFactor : ℚ) :
    Option (ℕ × ℕ) :=
  match gradient mode arr dx dy xFactor yFactor with
  | .ok m => some (m.rows, m.cols)
  | .error _ => none

/-- A raster stored top-first (`yAtTop`) with square cells of side `pH`. -/
def mkTop {S : Type} (srs : S) (xMin yMax pH : ℚ) (nx ny : ℕ)
    (d : ℕ → ℕ → ℚ) : Raster S :=
  ⟨srs, ⟨xMin, yMax, pH, pH, nx, ny, true⟩, d⟩

/-- The same raster as `mkTop srs xMin yMax pH nx ny d` but stored
bottom-first: metadata identical except `yAtTop`, and the storage rows
mirrored so that every geographic cell holds the same value. -/
def mkFlip {S : Type} (srs : S) (xMin yMax pH : ℚ) (nx ny : ℕ)
    (d : ℕ → ℕ → ℚ) : Raster S :=
  ⟨srs, ⟨xMin, yMax, pH, pH, nx, ny, false⟩, fun i j => d (ny - 1 - i) j⟩

/-- Concrete transformation collaborator for witnesses: shifts a
coordinate by the numeric source and target system tags. -/
def transDemo : ℕ → ℕ → ℚ × ℚ → ℚ × ℚ := fun a b c => (c.1 + a, c.2 + b)

/-- Concrete stand-in for the external bicubic spline in witnesses. -/
def cubDemo : List (List ℚ) → ℚ → ℚ → ℚ := fun _ _ _ => 0

/-- 3x3 eastward ramp `v[i,j] = j`. -/
def rampMat : Mat ℚ := ⟨3, 3, fun _ j => (j : ℚ)⟩

/-- 1x2 top-first raster with cell values equal to their canonical row. -/
def tieTop : Raster ℕ := mkTop 0 0 2 1 1 2 (fun r _ => (r : ℚ))

/-- The same grid as `tieTop` stored bottom-first. -/
def tieFlip : Raster ℕ := mkFlip 0 0 2 1 1 2 (fun r _ => (r : ℚ))

/-- 1x2 top-first raster with rectangular cells (pixelWidth 2,
pixelHeight 1) and cell values equal to their canonical row. -/
def asymTop : Raster ℕ :=
  ⟨0, ⟨0, 2, 2, 1, 1, 2, true⟩, fun r _ => (r : ℚ)⟩

/-- The same grid as `asymTop` stored bottom-first. -/
def asymFlip : Raster ℕ :=
  ⟨0, ⟨0, 2, 2, 1, 1, 2, false⟩, fun i _ => ((1 - i : ℕ) : ℚ)⟩

/-- 1x3 top-first raster with rectangular cells (pixelWidth 3,
pixelHeight 1) and cell values equal to their canonical row; used to
exhibit the pixelWidth/pixelHeight mixup in the y localization. -/
def nearRaster : Raster ℕ :=
  ⟨0, ⟨0, 3, 3, 1, 1, 3, true⟩, fun r _ => (r : ℚ)⟩

/-- 5x6 top-first raster with rectangular cells (pixelWidth 2,
pixelHeight 1) whose values are the linear function `f(x, y) = y` of the
geographic cell centers: row `r` has center `y = 6 - (r + 0.5)`. -/
def splineRaster : Raster ℕ :=
  ⟨0, ⟨0, 6, 2, 1, 5, 6, true⟩, fun r _ => 11/2 - (r : ℚ)⟩

/-- The radius each `pointValue` mode passes to `pointValues`. -/
def modeWin (mode : String) (wkw : Option ℕ) : ℕ :=
  if mode = "near" then 0
  else if mode = "linear-spline" then 2
  else if mode = "cubic-spline" then 4
  else wkw.getD 3

/-- The per-window reducer each `pointValue` mode applies. -/
def modeG (mode : String) (cub : List (List ℚ) → ℚ → ℚ → ℚ)
    (func : Option (List (List ℚ) → ℚ)) : List (List ℚ) → ℚ × ℚ → ℚ :=
  if mode = "near" then fun z _ => (z.headD []).headD 0
  else if mode = "linear-spline" then fun z off => bilinearEval 2 z off.2 off.1
  else if mode = "cubic-spline" then fun z off => cub z off.2 off.1
  else if mode = "average" then fun z _ => matMean z
  else fun z _ => (func.getD (fun _ => 0)) z

/-- Branch unfolding of `pointValue` at mode `near`. -/
theorem pointValue_near {S : Type} [DecidableEq S] (trans : S → S → ℚ × ℚ → ℚ × ℚ)
    (cub : List (List ℚ) → ℚ → ℚ → ℚ) (func : Option (List (List ℚ) → ℚ))
    (wkw : Option ℕ) (r : Raster S) (input : PointsInput S) (pointSRS : S) :
    pointValue trans cub func wkw r input pointSRS "near" =
      runMode trans r (normalizePoints input pointSRS) 0
        (fun z _ => (z.headD []).headD 0) := rfl

/-- Branch unfolding of `pointValue` at mode `linear-spline`. -/
theorem pointValue_linear {S : Type} [DecidableEq S] (trans : S → S → ℚ × ℚ → ℚ × ℚ)
    (cub : List (List ℚ) → ℚ → ℚ → ℚ) (func : Option (List (List ℚ) → ℚ))
    (wkw : Option ℕ) (r : Raster S) (input : PointsInput S) (pointSRS : S) :
    pointValue trans cub func wkw r input pointSRS "linear-spline" =
      runMode trans r (normalizePoints input pointSRS) 2
        (fun z off => bilinearEval 2 z off.2 off.1) := rfl

/-- Branch unfolding of `pointValue` at mode `cubic-spline`. -/
theorem pointValue_cubic {S : Type} [DecidableEq S] (trans : S → S → ℚ × ℚ → ℚ × ℚ)
    (cub : List (List ℚ) → ℚ → ℚ → ℚ) (func : Option (List (List ℚ) → ℚ))
    (wkw : Option ℕ) (r : Raster S) (input : PointsInput S) (pointSRS : S) :
    pointValue trans cub func wkw r input pointSRS "cubic-spline" =
      runMode trans r (normalizePoints input pointSRS) 4
        (fun z off => cub z off.2 off.1) := rfl

/-- Branch unfolding of `pointValue` at mode `average`. -/
theorem pointValue_average {S : Type} [DecidableEq S] (trans : S → S → ℚ × ℚ → ℚ × ℚ)
    (cub : List (List ℚ) → ℚ → ℚ → ℚ) (func : Option (List (List ℚ) → ℚ))
    (wkw : Option ℕ) (r : Raster S) (input : PointsInput S) (pointSRS : S) :
    pointValue trans cub func wkw r input pointSRS "average" =
      runMode trans r (normalizePoints input pointSRS) (wkw.getD 3)
        (fun z _ => matMean z) := rfl

/-- Branch unfolding of `pointValue` at mode `func` with a reducer. -/
theorem pointValue_func {S : Type} [DecidableEq S] (trans : S → S → ℚ × ℚ → ℚ × ℚ)
    (cub : List (List ℚ) → ℚ → ℚ → ℚ) (f : List (List ℚ) → ℚ)
    (wkw : Option ℕ) (r : Raster S) (input : PointsInput S) (pointSRS : S) :
    pointValue trans cub (some f) wkw r input pointSRS "func" =
      runMode trans r (normalizePoints input pointSRS) (wkw.getD 3)
        (fun z _ => f z) := rfl

/-- Branch unfolding of `pointValue` at mode `func` without a reducer. -/
theorem pointValue_funcNone {S : Type} [DecidableEq S] (trans : S → S → ℚ × ℚ → ℚ × ℚ)
    (cub : List (List ℚ) → ℚ → ℚ → ℚ)
    (wkw : Option ℕ) (r : Raster S) (input : PointsInput S) (pointSRS : S) :
    pointValue trans cub none wkw r input pointSRS "func" =
      (.error funcMsg, normalizePoints input pointSRS) := rfl

/-- Branch unfolding of `gradient` at mode `north-south`. -/
theorem gradient_northSouth (arr : Mat ℚ) (dx dy xf yf : ℚ) :
    gradient "north-south" arr dx dy xf yf =
      .ok ((nsComp arr dy yf).map (fun q => (q : ℝ))) := rfl

/-- Branch unfolding of `gradient` at mode `ns`. -/
theorem gradient_nsAlias (arr : Mat ℚ) (dx dy xf yf : ℚ) :
    gradient "ns" arr dx dy xf yf =
      .ok ((nsComp arr dy yf).map (fun q => (q : ℝ))) := rfl

/-- Branch unfolding of `gradient` at mode `east-west`. -/
theorem gradient_eastWest (arr : Mat ℚ) (dx dy xf yf : ℚ) :
    gradient "east-west" arr dx dy xf yf =
      .ok ((ewComp arr dx xf).map (fun q => (q : ℝ))) := rfl

/-- Branch unfolding of `gradient` at mode `total`. -/
theorem gradient_total (arr : Mat ℚ) (dx dy xf yf : ℚ) :
    gradient "total" arr dx dy xf yf =
      .ok ⟨arr.rows, arr.cols, fun i j =>
        Real.sqrt ((((nsComp arr dy yf).entry i j : ℝ)) ^ 2 +
          (((ewComp arr dx xf).entry i j : ℝ)) ^ 2)⟩ := rfl

/-- Branch unfolding of `gradient` at mode `slope`. -/
theorem gradient_slope (arr : Mat ℚ) (dx dy xf yf : ℚ) :
    gradient "slope" arr dx dy xf yf =
      .ok ⟨arr.rows, arr.cols, fun i j =>
        Real.sqrt ((((nsComp arr dy yf).entry i j : ℝ)) ^ 2 +
          (((ewComp arr dx xf).entry i j : ℝ)) ^ 2)⟩ := rfl

/-- Branch unfolding of `gradient` at mode `dir`. -/
theorem gradient_dir (arr : Mat ℚ) (dx dy xf yf : ℚ) :
    gradient "dir" arr dx dy xf yf =
      .ok ⟨arr.rows, arr.cols, fun i j =>
        arctan2 ((nsComp arr dy yf).entry i j) ((ewComp arr dx xf).entry i j)⟩ := rfl

/-- Mode `ew` passes the acceptability check but reaches the end of the
branch chain with `output` unassigned. -/
theorem gradient_ewAlias (arr : Mat ℚ) (dx dy xf yf : ℚ) :
    gradient "ew" arr dx dy xf yf = .error unboundOutputMsg := rfl

/-- An unrecognized mode fails the acceptability check. -/
theorem gradient_notAcceptable (mode : String) (arr : Mat ℚ) (dx dy xf yf : ℚ)
    (h : mode ∉ acceptableModes) :
    gradient mode arr dx dy xf yf = .error gradModeMsg := by
  simp [gradient, h]

/-- Evaluation helper: `np.round 0 = 0`. -/
theorem npRound_zero : npRound 0 = 0 := by norm_num [npRound]

/-- Evaluation helper: `np.round 0.5 = 0` (tie, rounds to even). -/
theorem npRound_half : npRound (1/2) = 0 := by norm_num [npRound]

/-- Evaluation helper: `np.round 0.25 = 0`. -/
theorem npRound_quarter : npRound (1/4) = 0 := by norm_num [npRound]

/-- Evaluation helper: `np.round (-0.25) = 0`. -/
theorem npRound_negQuarter : npRound (-(1/4)) = 0 := by norm_num [npRound]

/-- Evaluation helper: `np.round 0.75 = 1`. -/
theorem npRound_threeQuarters : npRound (3/4) = 1 := by norm_num [npRound]

/-- Evaluation helper: `np.round 2 = 2`. -/
theorem npRound_two : npRound 2 = 2 := by norm_num [npRound]

/-- Evaluation helper: `np.round 1.75 = 2`. -/
theorem npRound_sevenQuarters : npRound (7/4) = 2 := by norm_num [npRound]

/-- Claim C4: for every grid, the interior cells of the gradient satisfy
`ns[i,j] = (v[i+1,j] - v[i-1,j])/(2*cellHeight*yFactor)` and
`ew[i,j] = (v[i,j-1] - v[i,j+1])/(2*cellWidth*xFactor)`, with
`total`/`slope` equal to `sqrt(ns^2 + ew^2)` and `dir` equal to
`atan2(ns, ew)`; and for the ramp `v[i,j] = j` with `cellWidth = 1` and
unit factor `1`, every interior east-west value is `-1` and every
north-south value is `0`. -/
theorem gradient_interior_formulas (arr : Mat ℚ) (dx dy xf yf : ℚ) (i j : ℕ)
    (hi1 : 1 ≤ i) (hi2 : i + 1 < arr.rows) (hj1 : 1 ≤ j) (hj2 : j + 1 < arr.cols) :
    gradEntry "north-south" arr dx dy xf yf i j
        = ((arr.entry (i + 1) j - arr.entry (i - 1) j) / (2 * dy * yf) : ℚ)
    ∧ gradEntry "east-west" arr dx dy xf yf i j
        = ((arr.entry i (j - 1) - arr.entry i (j + 1)) / (2 * dx * xf) : ℚ)
    ∧ gradEntry "total" arr dx dy xf yf i j
        = Real.sqrt ((gradEntry "north-south" arr dx dy xf yf i j) ^ 2
            + (gradEntry "east-west" arr dx dy xf yf i j) ^ 2)
    ∧ gradEntry "slope" arr dx dy xf yf i j = gradEntry "total" arr dx dy xf yf i j
    ∧ gradEntry "dir" arr dx dy xf yf i j
        = arctan2 (gradEntry "north-south" arr dx dy xf yf i j)
            (gradEntry "east-west" arr dx dy xf yf i j)
    ∧ ((∀ a b, arr.entry a b = (b : ℚ)) → dx = 1 → xf = 1 →
        gradEntry "east-west" arr dx dy xf yf i j = -1
        ∧ gradEntry "north-south" arr dx dy xf yf i j = 0) := by
  have hnsq : (nsComp arr dy yf).entry i j
      = (arr.entry (i + 1) j - arr.entry (i - 1) j) / (2 * dy * yf) := by
    simp [nsComp, hi1, hi2]
  have hewq : (ewComp arr dx xf).entry i j
      = (arr.entry i (j - 1) - arr.entry i (j + 1)) / (2 * dx * xf) := by
    simp [ewComp, hj1, hj2]
  have hns : gradEntry "north-south" arr dx dy xf yf i j
      = ((arr.entry (i + 1) j - arr.entry (i - 1) j) / (2 * dy * yf) : ℚ) := by
    simp [gradEntry, gradient_northSouth, Mat.map, hnsq]
  have hew : gradEntry "east-west" arr dx dy xf yf i j
      = ((arr.entry i (j - 1) - arr.entry i (j + 1)) / (2 * dx * xf) : ℚ) := by
    simp [gradEntry, gradient_eastWest, Mat.map, hewq]
  have ht : gradEntry "total" arr dx dy xf yf i j
      = Real.sqrt ((((nsComp arr dy yf).entry i j : ℝ)) ^ 2
          + (((ewComp arr dx xf).entry i j : ℝ)) ^ 2) := by
    simp [gradEntry, gradient_total]
  have hd : gradEntry "dir" arr dx dy xf yf i j
      = arctan2 ((nsComp arr dy yf).entry i j) ((ewComp arr dx xf).entry i j) := by
    simp [gradEntry, gradient_dir]
  refine ⟨hns, hew, ?_, ?_, ?_, ?_⟩
  · rw [hns, hew, ht, hnsq, hewq]
  · simp [gradEntry, gradient_total, gradient_slope]
  · rw [hns, hew, hd, hnsq, hewq]
  · intro hramp hdx hxf
    constructor
    · rw [hew, hramp, hramp, hdx, hxf]
      have h1 : ((j - 1 : ℕ) : ℚ) = (j : ℚ) - 1 := by
        push_cast [Nat.cast_sub hj1]
        ring
      rw [h1]
      push_cast
      ring_nf
    · rw [hns, hramp, hramp]
      norm_num

/-- Witness for C4 at the concrete 3x3 ramp with unit spacing/factors,
interior cell (1,1). -/
theorem gradient_interior_formulas_witness :
    gradEntry "north-south" rampMat 1 1 1 1 1 1
        = ((rampMat.entry 2 1 - rampMat.entry 0 1) / (2 * 1 * 1) : ℚ)
    ∧ gradEntry "east-west" rampMat 1 1 1 1 1 1
        = ((rampMat.entry 1 0 - rampMat.entry 1 2) / (2 * 1 * 1) : ℚ)
    ∧ gradEntry "total" rampMat 1 1 1 1 1 1
        = Real.sqrt ((gradEntry "north-south" rampMat 1 1 1 1 1 1) ^ 2
            + (gradEntry "east-west" rampMat 1 1 1 1 1 1) ^ 2)
    ∧ gradEntry "slope" rampMat 1 1 1 1 1 1 = gradEntry "total" rampMat 1 1 1 1 1 1
    ∧ gradEntry "dir" rampMat 1 1 1 1 1 1
        = arctan2 (gradEntry "north-south" rampMat 1 1 1 1 1 1)
            (gradEntry "east-west" rampMat 1 1 1 1 1 1)
    ∧ gradEntry "east-west" rampMat 1 1 1 1 1 1 = -1
    ∧ gradEntry "north-south" rampMat 1 1 1 1 1 1 = 0 := by
  obtain ⟨h1, h2, h3, h4, h5, h6⟩ :=
    gradient_interior_formulas rampMat 1 1 1 1 1 1 (le_refl 1) (by decide)
      (le_refl 1) (by decide)
  obtain ⟨h7, h8⟩ := h6 (fun a b => rfl) rfl rfl
  exact ⟨h1, h2, h3, h4, h5, h7, h8⟩

/-- Claim C5: for every input grid and every mode, when the gradient call
produces an output it has exactly the shape of the input array, and the
border cells of the differenced axis are exactly zero: first and last row
for the north-south component, first and last column for the east-west
component. -/
theorem gradient_boundary (mode : String) (arr : Mat ℚ) (dx dy xf yf : ℚ) :
    (gradShape mode arr dx dy xf yf = some (arr.rows, arr.cols)
      ∨ gradShape mode arr dx dy xf yf = none)
    ∧ ((mode = "north-south" ∨ mode = "ns") → ∀ j,
        gradEntry mode arr dx dy xf yf 0 j = 0
        ∧ gradEntry mode arr dx dy xf yf (arr.rows - 1) j = 0)
    ∧ ((mode = "east-west" ∨ mode = "ew") → ∀ i,
        gradEntry mode arr dx dy xf yf i 0 = 0
        ∧ gradEntry mode arr dx dy xf yf i (arr.cols - 1) = 0) := by
  have hrowLast : ¬(1 ≤ arr.rows - 1 ∧ arr.rows - 1 + 1 < arr.rows) := by omega
  have hcolLast : ¬(1 ≤ arr.cols - 1 ∧ arr.cols - 1 + 1 < arr.cols) := by omega
  refine ⟨?_, ?_, ?_⟩
  · by_cases h : mode ∈ acceptableModes
    · simp only [acceptableModes, List.mem_cons, List.mem_singleton,
        List.not_mem_nil, or_false] at h
      rcases h with rfl | rfl | rfl | rfl | rfl | rfl | rfl
      · exact Or.inl (by simp [gradShape, gradient_total])
      · exact Or.inl (by simp [gradShape, gradient_slope])
      · exact Or.inl (by simp [gradShape, gradient_northSouth, Mat.map, nsComp])
      · exact Or.inl (by simp [gradShape, gradient_eastWest, Mat.map, ewComp])
      · exact Or.inl (by simp [gradShape, gradient_dir])
      · exact Or.inr (by simp [gradShape, gradient_ewAlias])
      · exact Or.inl (by simp [gradShape, gradient_nsAlias, Mat.map, nsComp])
    · exact Or.inr (by simp [gradShape, gradient_notAcceptable mode arr dx dy xf yf h])
  · rintro (rfl | rfl) j
    · exact ⟨by simp [gradEntry, gradient_northSouth, Mat.map, nsComp],
        by simp [gradEntry, gradient_northSouth, Mat.map, nsComp, hrowLast]⟩
    · exact ⟨by simp [gradEntry, gradient_nsAlias, Mat.map, nsComp],
        by simp [gradEntry, gradient_nsAlias, Mat.map, nsComp, hrowLast]⟩
  · rintro (rfl | rfl) i
    · exact ⟨by simp [gradEntry, gradient_eastWest, Mat.map, ewComp],
        by simp [gradEntry, gradient_eastWest, Mat.map, ewComp, hcolLast]⟩
    · exact ⟨by simp [gradEntry, gradient_ewAlias],
        by simp [gradEntry, gradient_ewAlias]⟩

/-- Witness for C5 at the 3x3 ramp, modes `north-south` and `east-west`. -/
theorem gradient_boundary_witness :
    (gradShape "north-south" rampMat 1 1 1 1 = some (3, 3)
      ∨ gradShape "north-south" rampMat 1 1 1 1 = none)
    ∧ gradEntry "north-south" rampMat 1 1 1 1 0 1 = 0
    ∧ gradEntry "north-south" rampMat 1 1 1 1 2 1 = 0
    ∧ gradEntry "east-west" rampMat 1 1 1 1 1 0 = 0
    ∧ gradEntry "east-west" rampMat 1 1 1 1 1 2 = 0 := by
  obtain ⟨hsh, hns, hew⟩ := gradient_boundary "north-south" rampMat 1 1 1 1
  obtain ⟨hns1, hns2⟩ := hns (Or.inl rfl) 1
  obtain ⟨-, -, hew2⟩ := gradient_boundary "east-west" rampMat 1 1 1 1
  obtain ⟨he1, he2⟩ := hew2 (Or.inl rfl) 1
  exact ⟨hsh, hns1, hns2, he1, he2⟩

/-- Claim C6 (code bug): mode `ew` is in the acceptable list and documented
as an alias of `east-west`, but the east-west computation branch condition
omits it, so `output` is never assigned and the call raises
`UnboundLocalError` instead of completing; `east-west` itself succeeds and
a genuinely unrecognized mode raises the unsupported-mode error. -/
theorem gradient_ewAlias_crash :
    "ew" ∈ acceptableModes
    ∧ gradient "ew" rampMat 1 1 1 1 = .error unboundOutputMsg
    ∧ gradShape "east-west" rampMat 1 1 1 1 = some (3, 3)
    ∧ gradient "lorem" rampMat 1 1 1 1 = .error gradModeMsg := by
  refine ⟨by decide, rfl, ?_, ?_⟩
  · simp [gradShape, gradient_eastWest, Mat.map, ewComp, rampMat]
  · exact gradient_notAcceptable "lorem" rampMat 1 1 1 1 (by decide)

/-- `foldl min` is below `c` iff the seed or some element is. -/
theorem foldlMin_lt_iff (c : ℤ) (l : List ℤ) :
    ∀ x, l.foldl min x < c ↔ x < c ∨ ∃ z ∈ l, z < c := by
  induction l with
  | nil => simp
  | cons y l ih =>
    intro x
    rw [List.foldl_cons, ih (min x y), min_lt_iff]
    simp only [List.mem_cons]
    constructor
    · rintro ((h | h) | ⟨z, hz, h⟩)
      · exact Or.inl h
      · exact Or.inr ⟨y, Or.inl rfl, h⟩
      · exact Or.inr ⟨z, Or.inr hz, h⟩
    · rintro (h | ⟨z, rfl | hz, h⟩)
      · exact Or.inl (Or.inl h)
      · exact Or.inl (Or.inr h)
      · exact Or.inr ⟨z, hz, h⟩

/-- `foldl max` is above `c` iff the seed or some element is. -/
theorem foldlMax_gt_iff (c : ℤ) (l : List ℤ) :
    ∀ x, c < l.foldl max x ↔ c < x ∨ ∃ z ∈ l, c < z := by
  induction l with
  | nil => simp
  | cons y l ih =>
    intro x
    rw [List.foldl_cons, ih (max x y), lt_max_iff]
    simp only [List.mem_cons]
    constructor
    · rintro ((h | h) | ⟨z, hz, h⟩)
      · exact Or.inl h
      · exact Or.inr ⟨y, Or.inl rfl, h⟩
      · exact Or.inr ⟨z, Or.inr hz, h⟩
    · rintro (h | ⟨z, rfl | hz, h⟩)
      · exact Or.inl (Or.inl h)
      · exact Or.inl (Or.inr h)
      · exact Or.inr ⟨z, hz, h⟩

/-- `listMin` of a mapped nonempty list compared pointwise. -/
theorem listMin_map_lt {α : Type} (f : α → ℤ) (p : α) (l : List α) (c : ℤ) :
    listMin ((p :: l).map f) < c ↔ ∃ q ∈ p :: l, f q < c := by
  rw [List.map_cons, listMin, foldlMin_lt_iff]
  simp only [List.mem_map, List.mem_cons]
  constructor
  · rintro (h | ⟨z, ⟨a, ha, rfl⟩, h⟩)
    · exact ⟨p, Or.inl rfl, h⟩
    · exact ⟨a, Or.inr ha, h⟩
  · rintro ⟨q, rfl | hq, h⟩
    · exact Or.inl h
    · exact Or.inr ⟨f q, ⟨q, hq, rfl⟩, h⟩

/-- `listMax` of a mapped nonempty list compared pointwise. -/
theorem listMax_map_gt {α : Type} (f : α → ℤ) (p : α) (l : List α) (c : ℤ) :
    c < listMax ((p :: l).map f) ↔ ∃ q ∈ p :: l, c < f q := by
  rw [List.map_cons, listMax, foldlMax_gt_iff]
  simp only [List.mem_map, List.mem_cons]
  constructor
  · rintro (h | ⟨z, ⟨a, ha, rfl⟩, h⟩)
    · exact ⟨p, Or.inl rfl, h⟩
    · exact ⟨a, Or.inr ha, h⟩
  · rintro ⟨q, rfl | hq, h⟩
    · exact Or.inl h
    · exact Or.inr ⟨f q, ⟨q, hq, rfl⟩, h⟩

/-- Bounded existentials over a list distribute over disjunction. -/
theorem exists_mem_or_iff {α : Type} (l : List α) (P Q : α → Prop) :
    ((∃ x ∈ l, P x) ∨ ∃ x ∈ l, Q x) ↔ ∃ x ∈ l, P x ∨ Q x := by
  constructor
  · rintro (⟨x, hx, h⟩ | ⟨x, hx, h⟩)
    · exact ⟨x, hx, Or.inl h⟩
    · exact ⟨x, hx, Or.inr h⟩
  · rintro ⟨x, hx, h | h⟩
    · exact Or.inl ⟨x, hx, h⟩
    · exact Or.inr ⟨x, hx, h⟩

/-- The aggregated min/max bounds condition of `pointValuesChecked` holds
iff some point of the batch is out of bounds. -/
theorem checked_cond_iff {S : Type} (r : Raster S) (p : ℚ × ℚ)
    (rest : List (ℚ × ℚ)) (w : ℕ) :
    (listMin ((p :: rest).map (fun c => (locateX r.info c.1).1 - (w : ℤ))) < 0
      ∨ listMin ((p :: rest).map (fun c => (locateY r.info c.2).1 - (w : ℤ))) < 0
      ∨ listMax ((p :: rest).map (fun c => (locateX r.info c.1).1 - (w : ℤ)))
          + (2 * (w : ℤ) + 1) > (r.info.xWinSize : ℤ)
      ∨ listMax ((p :: rest).map (fun c => (locateY r.info c.2).1 - (w : ℤ)))
          + (2 * (w : ℤ) + 1) > (r.info.yWinSize : ℤ))
    ↔ ∃ q ∈ p :: rest, outOfBounds r.info q w := by
  rw [listMin_map_lt, listMin_map_lt, gt_iff_lt, ← sub_lt_iff_lt_add,
    listMax_map_gt, gt_iff_lt, ← sub_lt_iff_lt_add, listMax_map_gt,
    exists_mem_or_iff, exists_mem_or_iff, exists_mem_or_iff]
  refine exists_congr fun q => and_congr_right fun _ => ?_
  unfold outOfBounds
  omega

/-- Claim C3: `pointValues` raises the out-of-bounds error iff some point
of the batch has a located index whose requested window leaves the grid
(`col - radius < 0`, `row - radius < 0`, `col + radius >= colCount` or
`row + radius >= rowCount`); and whenever windows are produced, no point
of the batch was out of bounds — the aggregated check precedes every read,
so a failing batch yields no windows at all (the error carries no data). -/
theorem pointValues_bounds_allOrNothing {S : Type} (r : Raster S) (p : ℚ × ℚ)
    (rest : List (ℚ × ℚ)) (w : ℕ) :
    (pointValuesChecked r (p :: rest) w = .error oobMsg
      ↔ ∃ q ∈ p :: rest, outOfBounds r.info q w)
    ∧ (∀ ws offs, pointValuesChecked r (p :: rest) w = .ok (ws, offs)
        → ∀ q ∈ p :: rest, ¬ outOfBounds r.info q w) := by
  simp only [pointValuesChecked]
  split
  case isTrue hcc =>
    refine ⟨⟨fun _ => (checked_cond_iff r p rest w).mp hcc, fun _ => rfl⟩,
      fun ws offs h => by simp at h⟩
  case isFalse hcc =>
    refine ⟨⟨fun h => by simp at h,
      fun hex => absurd ((checked_cond_iff r p rest w).mpr hex) hcc⟩,
      fun ws offs _ q hq hob => hcc ((checked_cond_iff r p rest w).mpr ⟨q, hq, hob⟩)⟩

/-- Witness for C3: a 2-point batch on `tieTop` where the second point is
out of bounds for radius 0 fails; the batch of its first point alone
succeeds. -/
theorem pointValues_bounds_witness :
    pointValuesChecked tieTop [(1/2, 3/4), (1/2, 100)] 0 = .error oobMsg
    ∧ ¬ pointValuesChecked tieTop [(1/2, 3/4)] 0 = .error oobMsg := by
  constructor
  · refine (pointValues_bounds_allOrNothing tieTop (1/2, 3/4) [(1/2, 100)] 0).1.mpr
      ⟨(1/2, 100), by simp, ?_⟩
    unfold outOfBounds
    norm_num [locateY, tieTop, mkTop, locateX, npRound]
  · intro h
    obtain ⟨q, hq, hob⟩ :=
      (pointValues_bounds_allOrNothing tieTop (1/2, 3/4) [] 0).1.mp h
    simp only [List.mem_singleton] at hq
    subst hq
    unfold outOfBounds at hob
    norm_num [locateX, locateY, tieTop, mkTop, npRound] at hob

/-- The final geometry states returned by `pointValues` do not depend on
the window radius (the transform step precedes the bounds check and the
reads). -/
theorem pointValues_state_winRange {S : Type} [DecidableEq S]
    (trans : S → S → ℚ × ℚ → ℚ × ℚ) (r : Raster S) (points : List (OgrPoint S))
    (w w2 : ℕ) :
    (pointValues trans r points w).2 = (pointValues trans r points w2).2 := by
  cases points <;> rfl

/-- `runMode` passes the geometry states of its `pointValues` call through. -/
theorem runMode_state {S : Type} [DecidableEq S] (trans : S → S → ℚ × ℚ → ℚ × ℚ)
    (r : Raster S) (points : List (OgrPoint S)) (w : ℕ)
    (g : List (List ℚ) → ℚ × ℚ → ℚ) :
    (runMode trans r points w g).2 = (pointValues trans r points w).2 := by
  unfold runMode
  rcases hpv : pointValues trans r points w with ⟨res, st⟩
  cases res with
  | error e => rfl
  | ok a => rfl

/-- Claim C9: when the first point reference system differs from the
raster system, `pointValues` transforms the caller geometry objects in
place — afterwards they carry the transformed coordinates and the raster
reference system; when it matches, the geometries are left unchanged.  The
same holds after a `pointValue` call, whose geometry states are those of
its inner `pointValues` call. -/
theorem pointValues_reprojects_in_place {S : Type} [DecidableEq S]
    (trans : S → S → ℚ × ℚ → ℚ × ℚ) (r : Raster S) (p0 : OgrPoint S)
    (rest : List (OgrPoint S)) (w : ℕ) :
    (p0.srs ≠ r.srs →
      (pointValues trans r (p0 :: rest) w).2
          = (p0 :: rest).map (applyTrans trans p0.srs r.srs)
      ∧ ∀ q ∈ (pointValues trans r (p0 :: rest) w).2, q.srs = r.srs)
    ∧ (p0.srs = r.srs → (pointValues trans r (p0 :: rest) w).2 = p0 :: rest)
    ∧ ∀ (cub : List (List ℚ) → ℚ → ℚ → ℚ) (f : List (List ℚ) → ℚ)
        (wkw : Option ℕ) (pointSRS : S) (mode : String),
        mode ∈ ["near", "linear-spline", "cubic-spline", "average", "func"] →
        (pointValue trans cub (some f) wkw r (.geomList (p0 :: rest)) pointSRS
            mode).2
          = (pointValues trans r (p0 :: rest) w).2 := by
  refine ⟨?_, ?_, ?_⟩
  · intro hne
    constructor
    · simp [pointValues, hne]
    · intro q hq
      simp only [pointValues, if_neg hne] at hq
      obtain ⟨a, ha, rfl⟩ := List.mem_map.mp hq
      rfl
  · intro he
    simp [pointValues, he]
  · intro cub f wkw pointSRS mode hm
    simp only [List.mem_cons, List.mem_singleton, List.not_mem_nil, or_false] at hm
    rcases hm with rfl | rfl | rfl | rfl | rfl
    · rw [pointValue_near, runMode_state]
      exact pointValues_state_winRange trans r _ 0 w
    · rw [pointValue_linear, runMode_state]
      exact pointValues_state_winRange trans r _ 2 w
    · rw [pointValue_cubic, runMode_state]
      exact pointValues_state_winRange trans r _ 4 w
    · rw [pointValue_average, runMode_state]
      exact pointValues_state_winRange trans r _ _ w
    · rw [pointValue_func, runMode_state]
      exact pointValues_state_winRange trans r _ _ w

/-- Witness for C9 at a concrete heterogeneous call: both geometries are
rewritten with the transformation into the raster system and end up
tagged with it, and a `pointValue` call mutates the same way. -/
theorem pointValues_reprojects_witness :
    (pointValues transDemo tieTop [⟨0, 0, 5⟩, ⟨1, 1, 5⟩] 3).2
        = [(⟨0, 0, 5⟩ : OgrPoint ℕ), ⟨1, 1, 5⟩].map (applyTrans transDemo 5 0)
    ∧ (∀ q ∈ (pointValues transDemo tieTop [⟨0, 0, 5⟩, ⟨1, 1, 5⟩] 3).2,
        q.srs = 0)
    ∧ (pointValue transDemo cubDemo (some matMean) none tieTop
          (.geomList [⟨0, 0, 5⟩, ⟨1, 1, 5⟩]) 9 "near").2
        = (pointValues transDemo tieTop [⟨0, 0, 5⟩, ⟨1, 1, 5⟩] 3).2 := by
  obtain ⟨h1, h2, h3⟩ :=
    pointValues_reprojects_in_place transDemo tieTop ⟨0, 0, 5⟩ [⟨1, 1, 5⟩] 3
  obtain ⟨ha, hb⟩ := h1 (by decide)
  exact ⟨ha, hb, h3 cubDemo matMean none 9 "near" (by decide)⟩

/-- Claim C10: `pointValues` decides whether to reproject solely from the
spatial reference of the first point, and applies the single
transformation built from the first point system to every point of the
batch — a later point with a different reference system never gets its
own transformation. -/
theorem pointValues_first_point_srs {S : Type} [DecidableEq S]
    (trans : S → S → ℚ × ℚ → ℚ × ℚ) (r : Raster S) (p0 p1 : OgrPoint S)
    (rest : List (OgrPoint S)) (w : ℕ) :
    (pointValues trans r (p0 :: p1 :: rest) w).2
      = if p0.srs = r.srs then p0 :: p1 :: rest
        else (p0 :: p1 :: rest).map (applyTrans trans p0.srs r.srs) := rfl

/-- Witness for C10: the second point carries system 7, but is transformed
with the transformation from the first point system 5 (shifting x by 5,
not by 7). -/
theorem pointValues_first_point_srs_witness :
    (pointValues transDemo tieTop [⟨0, 0, 5⟩, ⟨1, 1, 7⟩] 0).2
      = [(⟨5, 0, 0⟩ : OgrPoint ℕ), ⟨6, 1, 0⟩] := by
  rw [pointValues_first_point_srs]
  norm_num [applyTrans, transDemo, tieTop, mkTop]

/-- `np.round` of an integer is itself. -/
theorem npRound_intCast (m : ℤ) : npRound (m : ℚ) = m := by
  simp [npRound]

/-- Reflecting a rational around an integer reflects its rounding, as long
as its fractional part is not the tie 1/2 (round half to even is not
symmetric at ties: the two halves of a tie round toward the even side). -/
theorem npRound_int_sub (n : ℤ) (q : ℚ) (h : q - ⌊q⌋ ≠ 1/2) :
    npRound ((n : ℚ) - q) = n - npRound q := by
  set f := ⌊q⌋ with hf
  have ht0 : 0 ≤ q - f := sub_nonneg.mpr (Int.floor_le q)
  have ht1 : q - f < 1 := by
    linarith [Int.lt_floor_add_one q]
  rcases eq_or_lt_of_le ht0 with hz | hpos
  · have hq : q = (f : ℚ) := by linarith
    rw [hq, show (n : ℚ) - (f : ℚ) = ((n - f : ℤ) : ℚ) by push_cast; ring,
      npRound_intCast, npRound_intCast]
  · have hfl : ⌊(n : ℚ) - q⌋ = n - f - 1 := by
      rw [Int.floor_eq_iff]
      constructor
      · push_cast
        linarith
      · push_cast
        linarith
    unfold npRound
    rw [hfl, ← hf]
    push_cast
    rcases lt_or_gt_of_ne h with hh | hh <;>
      split_ifs <;> first | omega | linarith

/-- On two grids identical except for orientation (square cells), the
bottom-first y localization lands on the mirrored index with the same
canonical offset, provided the continuous index is not a rounding tie. -/
theorem locateY_flip (xMin yMax pH : ℚ) (nx ny : ℕ) (y : ℚ) (hpos : 0 < pH)
    (htie : ((yMax - pH / 2) - y) / |pH| - ⌊((yMax - pH / 2) - y) / |pH|⌋ ≠ 1 / 2) :
    locateY (⟨xMin, yMax, pH, pH, nx, ny, false⟩ : RasterInfo) y
      = ((ny : ℤ) - 1 - (locateY (⟨xMin, yMax, pH, pH, nx, ny, true⟩ : RasterInfo) y).1,
         (locateY (⟨xMin, yMax, pH, pH, nx, ny, true⟩ : RasterInfo) y).2) := by
  have habs : |pH| = pH := abs_of_pos hpos
  have hne : pH ≠ 0 := ne_of_gt hpos
  have htie2 : ((yMax - pH / 2) - y) / pH - ⌊((yMax - pH / 2) - y) / pH⌋ ≠ 1 / 2 := by
    simpa [habs] using htie
  have hkey : (y - ((yMax - (ny : ℚ) * pH) + pH / 2)) / pH
      = (((ny : ℤ) - 1 : ℤ) : ℚ) - ((yMax - pH / 2) - y) / pH := by
    field_simp
    ring
  have hround : npRound ((y - ((yMax - (ny : ℚ) * pH) + pH / 2)) / pH)
      = ((ny : ℤ) - 1) - npRound (((yMax - pH / 2) - y) / pH) := by
    rw [hkey]
    exact npRound_int_sub _ _ htie2
  show (npRound ((y - ((yMax - (ny : ℚ) * pH) + pH / 2)) / pH),
      -((y - ((yMax - (ny : ℚ) * pH) + pH / 2)) / pH
        - npRound ((y - ((yMax - (ny : ℚ) * pH) + pH / 2)) / pH)))
    = ((ny : ℤ) - 1 - npRound (((yMax - pH / 2) - y) / |pH|),
       ((yMax - pH / 2) - y) / |pH|
         - npRound (((yMax - pH / 2) - y) / |pH|))
  rw [Prod.mk.injEq, habs]
  refine ⟨hround, ?_⟩
  rw [hround, hkey]
  push_cast
  ring

/-- Reading a window around the mirrored index on the mirrored bottom-first
raster and flipping it reproduces the window read around the original index
on the top-first raster. -/
theorem readWindow_flip {S : Type} (srs : S) (xMin yMax pH : ℚ) (nx ny : ℕ)
    (d : ℕ → ℕ → ℚ) (xs iyT : ℤ) (w : ℕ)
    (h0 : 0 ≤ iyT - (w : ℤ)) (h1 : iyT + (w : ℤ) < (ny : ℤ)) :
    readWindow (mkFlip srs xMin yMax pH nx ny d) xs ((ny : ℤ) - 1 - iyT - (w : ℤ)) w
      = readWindow (mkTop srs xMin yMax pH nx ny d) xs (iyT - (w : ℤ)) w := by
  simp only [readWindow, mkFlip, mkTop, Bool.false_eq_true, if_false, if_true,
    ite_true, ite_false, eq_self_iff_true]
  apply List.ext_getElem
  · simp
  · intro m hm1 hm2
    simp only [List.length_map, List.length_range] at hm1 hm2
    rw [List.getElem_reverse]
    simp only [List.getElem_map, List.getElem_range, List.length_map,
      List.length_range]
    have hrow : ny - 1 - ((ny : ℤ) - 1 - iyT - (w : ℤ)
          + ((2 * w + 1 - 1 - m : ℕ) : ℤ)).toNat
        = ((iyT - (w : ℤ)) + (m : ℤ)).toNat := by
      omega
    simp only [hrow]

/-- Core of C1 (amended): on square-cell grids that differ only in storage
orientation (with mirrored storage so geographic cell values agree), the
window/offset extraction of `pointValues` gives identical results for a
point whose continuous y index is not a rounding tie. -/
theorem orientation_checked {S : Type} (srs : S) (xMin yMax pH : ℚ)
    (nx ny : ℕ) (d : ℕ → ℕ → ℚ) (x y : ℚ) (w : ℕ) (hpos : 0 < pH)
    (htie : ((yMax - pH / 2) - y) / |pH| - ⌊((yMax - pH / 2) - y) / |pH|⌋ ≠ 1 / 2) :
    pointValuesChecked (mkTop srs xMin yMax pH nx ny d) [(x, y)] w
      = pointValuesChecked (mkFlip srs xMin yMax pH nx ny d) [(x, y)] w := by
  have hy : locateY (mkFlip srs xMin yMax pH nx ny d).info y
      = ((ny : ℤ) - 1 - (locateY (mkTop srs xMin yMax pH nx ny d).info y).1,
         (locateY (mkTop srs xMin yMax pH nx ny d).info y).2) :=
    locateY_flip xMin yMax pH nx ny y hpos htie
  have hx : locateX (mkFlip srs xMin yMax pH nx ny d).info x
      = locateX (mkTop srs xMin yMax pH nx ny d).info x := rfl
  simp only [pointValuesChecked, List.map_cons, List.map_nil, hx, hy,
    List.zipWith_cons_cons, List.zipWith_nil_right, listMin, listMax,
    List.foldl_nil]
  set ix := (locateX (mkTop srs xMin yMax pH nx ny d).info x).1 with hix
  set iy := (locateY (mkTop srs xMin yMax pH nx ny d).info y).1 with hiy
  by_cases hb : ix - (w : ℤ) < 0 ∨ iy - (w : ℤ) < 0
      ∨ ix - (w : ℤ) + (2 * (w : ℤ) + 1) > ((mkTop srs xMin yMax pH nx ny d).info.xWinSize : ℤ)
      ∨ iy - (w : ℤ) + (2 * (w : ℤ) + 1) > ((mkTop srs xMin yMax pH nx ny d).info.yWinSize : ℤ)
  · rw [if_pos hb, if_pos (by simp only [mkTop, mkFlip] at hb ⊢; omega)]
  · rw [if_neg hb, if_neg (by simp only [mkTop, mkFlip] at hb ⊢; omega)]
    have hrw : readWindow (mkFlip srs xMin yMax pH nx ny d) (ix - (w : ℤ))
        ((ny : ℤ) - 1 - iy - (w : ℤ)) w
        = readWindow (mkTop srs xMin yMax pH nx ny d) (ix - (w : ℤ))
          (iy - (w : ℤ)) w := by
      apply readWindow_flip
      · simp only [mkTop] at hb
        omega
      · simp only [mkTop] at hb
        omega
    rw [Except.ok.injEq, Prod.mk.injEq]
    constructor
    · rw [← hrw]
    · rfl

/-- Claim C1 (amended): for square-cell grids identical except for native
vertical storage orientation (same geographic cell values), and a point
whose continuous y index is not exactly halfway between two cell centers,
`pointValues` produces identical windows (canonical top-first order) and
offsets on both grids, and `pointValue` produces identical results in
every interpolation mode. -/
theorem orientation_independent {S : Type} [DecidableEq S] (srs : S)
    (xMin yMax pH : ℚ) (nx ny : ℕ) (d : ℕ → ℕ → ℚ) (x y : ℚ) (w : ℕ)
    (trans : S → S → ℚ × ℚ → ℚ × ℚ) (cub : List (List ℚ) → ℚ → ℚ → ℚ)
    (func : Option (List (List ℚ) → ℚ)) (wkw : Option ℕ) (mode : String)
    (hpos : 0 < pH)
    (htie : ((yMax - pH / 2) - y) / |pH| - ⌊((yMax - pH / 2) - y) / |pH|⌋ ≠ 1 / 2) :
    pointValuesChecked (mkTop srs xMin yMax pH nx ny d) [(x, y)] w
      = pointValuesChecked (mkFlip srs xMin yMax pH nx ny d) [(x, y)] w
    ∧ (pointValue trans cub func wkw (mkTop srs xMin yMax pH nx ny d)
        (.coord (x, y)) srs mode).1
      = (pointValue trans cub func wkw (mkFlip srs xMin yMax pH nx ny d)
        (.coord (x, y)) srs mode).1 := by
  have hch : ∀ w2, pointValuesChecked (mkTop srs xMin yMax pH nx ny d) [(x, y)] w2
      = pointValuesChecked (mkFlip srs xMin yMax pH nx ny d) [(x, y)] w2 :=
    fun w2 => orientation_checked srs xMin yMax pH nx ny d x y w2 hpos htie
  have hpvT : ∀ w2, pointValues trans (mkTop srs xMin yMax pH nx ny d)
      [⟨x, y, srs⟩] w2
      = (pointValuesChecked (mkTop srs xMin yMax pH nx ny d) [(x, y)] w2,
        [⟨x, y, srs⟩]) := by
    intro w2
    simp [pointValues, mkTop]
  have hpvF : ∀ w2, pointValues trans (mkFlip srs xMin yMax pH nx ny d)
      [⟨x, y, srs⟩] w2
      = (pointValuesChecked (mkFlip srs xMin yMax pH nx ny d) [(x, y)] w2,
        [⟨x, y, srs⟩]) := by
    intro w2
    simp [pointValues, mkFlip]
  have hrm : ∀ (w2 : ℕ) (g : List (List ℚ) → ℚ × ℚ → ℚ),
      (runMode trans (mkTop srs xMin yMax pH nx ny d) [⟨x, y, srs⟩] w2 g).1
        = (runMode trans (mkFlip srs xMin yMax pH nx ny d) [⟨x, y, srs⟩] w2 g).1 := by
    intro w2 g
    unfold runMode
    rw [hpvT w2, hpvF w2, hch w2]
  refine ⟨hch w, ?_⟩
  by_cases h1 : mode = "near"
  · subst h1
    rw [pointValue_near, pointValue_near]
    exact hrm 0 _
  by_cases h2 : mode = "linear-spline"
  · subst h2
    rw [pointValue_linear, pointValue_linear]
    exact hrm 2 _
  by_cases h3 : mode = "cubic-spline"
  · subst h3
    rw [pointValue_cubic, pointValue_cubic]
    exact hrm 4 _
  by_cases h4 : mode = "average"
  · subst h4
    rw [pointValue_average, pointValue_average]
    exact hrm _ _
  by_cases h5 : mode = "func"
  · subst h5
    cases func with
    | none => rw [pointValue_funcNone, pointValue_funcNone]
    | some f =>
      rw [pointValue_func, pointValue_func]
      exact hrm _ _
  · simp only [pointValue, if_neg h1, if_neg h2, if_neg h3, if_neg h4, if_neg h5]

/-- Counterexample to C1 as stated: `tieTop`/`tieFlip` are the same
1x2 square-cell grid in the two orientations, yet at the point `(1/2, 1)`
— whose continuous y index is the tie 1/2 — nearest sampling returns the
two different cell values, because round half to even resolves the
mirrored tie to different geographic cells; and `asymTop`/`asymFlip` are
the same 1x2 grid with rectangular cells (pixelWidth 2, pixelHeight 1) in
the two orientations, yet at the in-bounds non-tie point `(1, 3/4)`
nearest sampling also differs, because the y localization subtracts
`0.5*pixelWidth` instead of `0.5*pixelHeight`. -/
theorem orientation_independent_counterexample :
    tieTop = mkTop 0 0 2 1 1 2 (fun r _ => (r : ℚ))
    ∧ tieFlip = mkFlip 0 0 2 1 1 2 (fun r _ => (r : ℚ))
    ∧ ((tieTop.info.yMax - tieTop.info.pixelWidth / 2) - 1)
        / |tieTop.info.pixelHeight| = 1 / 2
    ∧ (pointValue transDemo cubDemo none none tieTop (.coord (1/2, 1)) 0
        "near").1 = .ok (.scalar 0)
    ∧ (pointValue transDemo cubDemo none none tieFlip (.coord (1/2, 1)) 0
        "near").1 = .ok (.scalar 1)
    ∧ asymFlip.info = { asymTop.info with yAtTop := false }
    ∧ asymFlip.data = (fun i j => asymTop.data (1 - i) j)
    ∧ asymTop.info.pixelWidth ≠ asymTop.info.pixelHeight
    ∧ (pointValue transDemo cubDemo none none asymTop (.coord (1, 3/4)) 0
        "near").1 = .ok (.scalar 0)
    ∧ (pointValue transDemo cubDemo none none asymFlip (.coord (1, 3/4)) 0
        "near").1 = .ok (.scalar 1)
    ∧ (Except.ok (PVOut.scalar 0) : Except String PVOut) ≠ .ok (.scalar 1) := by
  refine ⟨rfl, rfl, by norm_num [tieTop, mkTop], ?_, ?_, rfl, rfl,
    by norm_num [asymTop], ?_, ?_, by simp⟩
  · rw [pointValue_near]
    norm_num [runMode, pointValues, normalizePoints, pointValuesChecked,
      locateX, locateY, RasterInfo.yMin, npRound_zero, npRound_half, listMin,
      listMax, readWindow, collapse, tieTop, mkTop, List.range_succ]
  · rw [pointValue_near]
    norm_num [runMode, pointValues, normalizePoints, pointValuesChecked,
      locateX, locateY, RasterInfo.yMin, npRound_zero, npRound_half, listMin,
      listMax, readWindow, collapse, tieFlip, mkFlip, List.range_succ]
  · rw [pointValue_near]
    norm_num [runMode, pointValues, normalizePoints, pointValuesChecked,
      locateX, locateY, RasterInfo.yMin, npRound_zero, npRound_quarter, listMin,
      listMax, readWindow, collapse, asymTop, List.range_succ]
  · rw [pointValue_near]
    norm_num [runMode, pointValues, normalizePoints, pointValuesChecked,
      locateX, locateY, RasterInfo.yMin, npRound_zero, npRound_negQuarter,
      listMin, listMax, readWindow, collapse, asymFlip, List.range_succ]

/-- Witness for C1 (amended) on the square-cell 1x2 grid at the non-tie
point `(1/2, 3/4)` in mode `near`. -/
theorem orientation_independent_witness :
    pointValuesChecked (mkTop (0 : ℕ) 0 2 1 1 2 (fun r _ => (r : ℚ))) [(1/2, 3/4)] 0
      = pointValuesChecked (mkFlip (0 : ℕ) 0 2 1 1 2 (fun r _ => (r : ℚ))) [(1/2, 3/4)] 0
    ∧ (pointValue transDemo cubDemo none none
        (mkTop (0 : ℕ) 0 2 1 1 2 (fun r _ => (r : ℚ))) (.coord (1/2, 3/4)) 0
        "near").1
      = (pointValue transDemo cubDemo none none
        (mkFlip (0 : ℕ) 0 2 1 1 2 (fun r _ => (r : ℚ))) (.coord (1/2, 3/4)) 0
        "near").1 :=
  orientation_independent 0 0 2 1 1 2 (fun r _ => (r : ℚ)) (1/2) (3/4) 0
    transDemo cubDemo none none "near" (by norm_num) (by norm_num)

/-- Zipping two maps of the same list is a map of the combined function. -/
theorem zipWith_map_same {α β γ δ : Type} (f : β → γ → δ) (a : α → β)
    (b : α → γ) (l : List α) :
    List.zipWith f (l.map a) (l.map b) = l.map (fun x => f (a x) (b x)) := by
  induction l with
  | nil => rfl
  | cons x l ih => simp [ih]

/-- The payload of a successful `pointValuesChecked` call: one window read
at the located index and one offset pair per input coordinate, in input
order. -/
theorem checked_ok_eq {S : Type} (r : Raster S) (coords : List (ℚ × ℚ))
    (w : ℕ) (ws : List (List (List ℚ))) (offs : List (ℚ × ℚ))
    (h : pointValuesChecked r coords w = .ok (ws, offs)) :
    ws = coords.map (fun c => readWindow r ((locateX r.info c.1).1 - (w : ℤ))
        ((locateY r.info c.2).1 - (w : ℤ)) w)
    ∧ offs = coords.map (fun c => ((locateX r.info c.1).2, (locateY r.info c.2).2)) := by
  simp only [pointValuesChecked] at h
  split at h
  · simp at h
  · rw [Except.ok.injEq, Prod.mk.injEq] at h
    obtain ⟨h1, h2⟩ := h
    constructor
    · rw [← h1, zipWith_map_same]
    · rw [← h2]

/-- Shape of a successful `runMode` call: the per-point scalars are the
map of `pointResult` over the (transformed) points in input order; a
single point collapses to a bare scalar, two or more points yield the
array with exactly one entry per point. -/
theorem runMode_shape {S : Type} [DecidableEq S] (trans : S → S → ℚ × ℚ → ℚ × ℚ)
    (r : Raster S) (points : List (OgrPoint S)) (w : ℕ)
    (g : List (List ℚ) → ℚ × ℚ → ℚ) (v : PVOut) (st : List (OgrPoint S))
    (d : OgrPoint S) (h : runMode trans r points w g = (.ok v, st)) :
    st.length = points.length
    ∧ (st.length = 1 → v = PVOut.scalar (pointResult r w g
        ((st.headD d).x, (st.headD d).y)))
    ∧ (2 ≤ st.length →
        v = PVOut.array ((st.map (fun p => (p.x, p.y))).map (pointResult r w g))
        ∧ ((st.map (fun p => (p.x, p.y))).map (pointResult r w g)).length
            = st.length) := by
  unfold runMode at h
  rcases hpv : pointValues trans r points w with ⟨res, st2⟩
  rw [hpv] at h
  cases res with
  | error e => simp at h
  | ok a =>
    obtain ⟨values, offsets⟩ := a
    rw [Prod.mk.injEq, Except.ok.injEq] at h
    obtain ⟨hv, hst⟩ := h
    rw [← hst, ← hv]
    cases points with
    | nil =>
      rw [pointValues] at hpv
      simp at hpv
    | cons p0 rest =>
      rw [pointValues, Prod.mk.injEq] at hpv
      obtain ⟨hch, hst2⟩ := hpv
      obtain ⟨hws, hoffs⟩ := checked_ok_eq r _ w values offsets hch
      have hlen : st2.length = (p0 :: rest).length := by
        rw [← hst2]
        split <;> simp
      have hE : List.zipWith g values offsets
          = (st2.map (fun p => (p.x, p.y))).map (pointResult r w g) := by
        rw [hws, hoffs, zipWith_map_same, ← hst2]
        rfl
      rw [hE]
      refine ⟨hlen, ?_, ?_⟩
      · intro h1
        obtain ⟨p, hp⟩ := List.length_eq_one.mp h1
        rw [hp]
        simp [collapse, pointResult]
      · intro h2
        have hne : ((st2.map (fun p => (p.x, p.y))).map
            (pointResult r w g)).length ≠ 1 := by
          simp only [List.length_map]
          omega
        simp [collapse, hne]
        omega

/-- Claim C8 (amended): a successful `pointValue` call returns one result
per (normalized, possibly transformed) input point: a single-point input —
or a one-element list input — collapses to the bare per-point scalar, and
an input of two or more points returns the array of per-point scalars in
input order, with exactly one entry per point. -/
theorem pointValue_result_shape {S : Type} [DecidableEq S]
    (trans : S → S → ℚ × ℚ → ℚ × ℚ) (cub : List (List ℚ) → ℚ → ℚ → ℚ)
    (func : Option (List (List ℚ) → ℚ)) (wkw : Option ℕ) (r : Raster S)
    (input : PointsInput S) (pointSRS : S) (mode : String) (v : PVOut)
    (st : List (OgrPoint S))
    (hok : pointValue trans cub func wkw r input pointSRS mode = (.ok v, st)) :
    st.length = (normalizePoints input pointSRS).length
    ∧ (st.length = 1 → v = PVOut.scalar (pointResult r (modeWin mode wkw)
        (modeG mode cub func)
        ((st.headD ⟨0, 0, pointSRS⟩).x, (st.headD ⟨0, 0, pointSRS⟩).y)))
    ∧ (2 ≤ st.length →
        v = PVOut.array ((st.map (fun p => (p.x, p.y))).map
          (pointResult r (modeWin mode wkw) (modeG mode cub func)))
        ∧ ((st.map (fun p => (p.x, p.y))).map
          (pointResult r (modeWin mode wkw) (modeG mode cub func))).length
            = st.length) := by
  by_cases h1 : mode = "near"
  · subst h1
    rw [pointValue_near] at hok
    exact runMode_shape trans r _ 0 _ v st ⟨0, 0, pointSRS⟩ hok
  by_cases h2 : mode = "linear-spline"
  · subst h2
    rw [pointValue_linear] at hok
    exact runMode_shape trans r _ 2 _ v st ⟨0, 0, pointSRS⟩ hok
  by_cases h3 : mode = "cubic-spline"
  · subst h3
    rw [pointValue_cubic] at hok
    exact runMode_shape trans r _ 4 _ v st ⟨0, 0, pointSRS⟩ hok
  by_cases h4 : mode = "average"
  · subst h4
    rw [pointValue_average] at hok
    exact runMode_shape trans r _ _ _ v st ⟨0, 0, pointSRS⟩ hok
  by_cases h5 : mode = "func"
  · subst h5
    cases func with
    | none =>
      rw [pointValue_funcNone, Prod.mk.injEq] at hok
      exact absurd hok.1 (by simp)
    | some f =>
      rw [pointValue_func] at hok
      have := runMode_shape trans r _ (wkw.getD 3) _ v st ⟨0, 0, pointSRS⟩ hok
      exact this
  · simp only [pointValue, if_neg h1, if_neg h2, if_neg h3, if_neg h4,
      if_neg h5, Prod.mk.injEq] at hok
    exact absurd hok.1 (by simp)

/-- Counterexample to C8 as stated: a list input holding exactly one point
does not return a one-element sequence — the `len(result)==1` check
collapses it to the bare scalar, indistinguishable from a single-point
call. -/
theorem pointValue_singleton_list_collapse :
    (pointValue transDemo cubDemo none none tieTop (.coordList [(1/2, 3/4)]) 0
        "near").1 = .ok (.scalar 1)
    ∧ PVOut.scalar 1 ≠ PVOut.array [1] := by
  refine ⟨?_, by simp⟩
  rw [pointValue_near]
  norm_num [runMode, pointValues, normalizePoints, pointValuesChecked,
    locateX, locateY, npRound_threeQuarters, npRound_zero, listMin, listMax,
    readWindow, collapse, tieTop, mkTop, List.range_succ]

/-- Witness for C8 (amended) at a concrete two-point batch in mode `near`:
the call returns the array of the two per-point scalars in input order. -/
theorem pointValue_result_shape_witness :
    ([(⟨1/2, 3/4, 0⟩ : OgrPoint ℕ), ⟨1/2, 5/4, 0⟩]).length
        = (normalizePoints (.coordList [((1 : ℚ)/2, 3/4), (1/2, 5/4)]) (0 : ℕ)).length
    ∧ PVOut.array [1, 0]
        = PVOut.array ((([(⟨1/2, 3/4, 0⟩ : OgrPoint ℕ), ⟨1/2, 5/4, 0⟩]).map
            (fun p => (p.x, p.y))).map
            (pointResult tieTop (modeWin "near" none) (modeG "near" cubDemo none)))
    ∧ ((([(⟨1/2, 3/4, 0⟩ : OgrPoint ℕ), ⟨1/2, 5/4, 0⟩]).map
          (fun p => (p.x, p.y))).map
          (pointResult tieTop (modeWin "near" none) (modeG "near" cubDemo none))).length
        = ([(⟨1/2, 3/4, 0⟩ : OgrPoint ℕ), ⟨1/2, 5/4, 0⟩]).length := by
  have hok : pointValue transDemo cubDemo none none tieTop
      (.coordList [(1/2, 3/4), (1/2, 5/4)]) 0 "near"
      = (.ok (.array [1, 0]), [⟨1/2, 3/4, 0⟩, ⟨1/2, 5/4, 0⟩]) := by
    rw [pointValue_near]
    norm_num [runMode, pointValues, normalizePoints, pointValuesChecked,
      locateX, locateY, npRound_threeQuarters, npRound_quarter, npRound_zero,
      listMin, listMax, readWindow, collapse, tieTop, mkTop, List.range_succ,
      Prod.mk.injEq]
  obtain ⟨hl, hs, ha⟩ := pointValue_result_shape transDemo cubDemo none none
      tieTop (.coordList [(1/2, 3/4), (1/2, 5/4)]) 0 "near" (.array [1, 0])
      [⟨1/2, 3/4, 0⟩, ⟨1/2, 5/4, 0⟩] hok
  obtain ⟨h1, h2⟩ := ha (by norm_num)
  exact ⟨hl, h1, h2⟩

/-- Claim C2 (code bug): the point `(3/2, 3/2)` is the exact geographic
center of cell `(c, r) = (0, 1)` of `nearRaster` (a yAtTop grid with
pixelWidth 3 and pixelHeight 1), yet the y localization — which subtracts
`0.5*pixelWidth` instead of `0.5*pixelHeight` from `yMax` — computes cell
index `(0, 0)` with zero offset, and nearest-mode `pointValue` returns the
value 0 of cell `(0, 0)` instead of the value 1 stored at cell `(0, 1)`. -/
theorem pointValue_near_center_bug :
    nearRaster.info.xMin + ((0 : ℚ) + 1/2) * nearRaster.info.pixelWidth = 3/2
    ∧ nearRaster.info.yMax - ((1 : ℚ) + 1/2) * nearRaster.info.pixelHeight = 3/2
    ∧ locateX nearRaster.info (3/2) = (0, 0)
    ∧ locateY nearRaster.info (3/2) = (0, 0)
    ∧ (pointValue transDemo cubDemo none none nearRaster (.coord (3/2, 3/2)) 0
        "near").1 = .ok (.scalar 0)
    ∧ nearRaster.data 1 0 = 1
    ∧ (0 : ℚ) ≠ 1 := by
  refine ⟨by norm_num [nearRaster], by norm_num [nearRaster], ?_, ?_, ?_,
    by norm_num [nearRaster], by norm_num⟩
  · norm_num [locateX, nearRaster, npRound_zero, Prod.mk.injEq]
  · norm_num [locateY, nearRaster, npRound_zero, Prod.mk.injEq]
  · rw [pointValue_near]
    norm_num [runMode, pointValues, normalizePoints, pointValuesChecked,
      locateX, locateY, npRound_zero, listMin, listMax, readWindow, collapse,
      nearRaster, List.range_succ]

set_option maxHeartbeats 1000000 in
/-- Claim C7 (code bug): the cell values of `splineRaster` (a yAtTop grid
with pixelWidth 2 and pixelHeight 1) are exactly the linear function
`f(x, y) = y` of the geographic cell centers, yet linear-spline
`pointValue` at the in-bounds point `(5, 13/4)` returns `15/4` instead of
`f = 13/4`: the y localization subtracts `0.5*pixelWidth` instead of
`0.5*pixelHeight`, so the fitted surface is evaluated half a cell away. -/
theorem pointValue_linearSpline_planar_bug :
    splineRaster.data = (fun (i : ℕ) (_ : ℕ) =>
      splineRaster.info.yMax - ((i : ℚ) + 1/2) * splineRaster.info.pixelHeight)
    ∧ (pointValue transDemo cubDemo none none splineRaster (.coord (5, 13/4)) 0
        "linear-spline").1 = .ok (.scalar (15/4))
    ∧ (15/4 : ℚ) ≠ 13/4 := by
  refine ⟨?_, ?_, by norm_num⟩
  · funext i j
    show (11/2 : ℚ) - i = 6 - ((i : ℚ) + 1/2) * 1
    ring
  · rw [pointValue_linear]
    norm_num [runMode, pointValues, normalizePoints, pointValuesChecked,
      locateX, locateY, npRound_two, npRound_sevenQuarters, listMin, listMax,
      readWindow, collapse, splineRaster, bilinearEval, znode, List.range_succ,
      show Int.toNat 2 = 2 from rfl, show Int.toNat 3 = 3 from rfl,
      show Int.toNat 4 = 4 from rfl]

end Geokit
